import Mathlib

/-!
Verification development for the FinancialInstrument valuation scripts.

Python floats are modelled as exact rationals.  A division of plain Python
floats whose divisor is a run-time value is modelled by `checkedDiv`, which
returns the error that Python raises (`ZeroDivisionError`) when the divisor
is zero; divisions by the nonzero literals `100` and `360` are modelled by
plain rational division.  Values that are numpy/pandas float64 scalars
(the free-cash-flow sensitivity sweep of FCF.py and the dividend series of
Stock_Valuation.py) divide IEEE-style instead: a zero divisor produces
inf, -inf or nan with a RuntimeWarning and no exception; these are modelled by
the `NPFloat` type and its arithmetic.  Python `round(x, 2)` is modelled by
`pyRound2` (round half to even, as Python rounds), and Python `int(x)`
truncation toward zero by `ratTrunc`.  A Python list comprehension that can
raise is modelled by `mapE`, which aborts at the first error, exactly as an
exception aborts the whole comprehension.
-/

/-- Division as Python performs it on floats: raises `ZeroDivisionError`
when the divisor is zero, otherwise exact division. -/
def checkedDiv (a b : ℚ) : Except String ℚ :=
  if b = 0 then .error "ZeroDivisionError" else .ok (a / b)

/-- Python `**` with an integer exponent: `0.0 ** n` raises for negative
`n`, every other case is total. -/
def checkedZpow (a : ℚ) (n : ℤ) : Except String ℚ :=
  if a = 0 ∧ n < 0 then .error "ZeroDivisionError" else .ok (a ^ n)

/-- Effectful left-to-right map: models a Python comprehension in which a
raised exception aborts the whole comprehension. -/
def mapE {α β : Type} (f : α → Except String β) : List α → Except String (List β)
  | [] => .ok []
  | a :: as => do
      let b ← f a
      let bs ← mapE f as
      .ok (b :: bs)

/-- Python `int(x)` on a float: truncation toward zero. -/
def ratTrunc (q : ℚ) : ℤ :=
  if 0 ≤ q then ⌊q⌋ else ⌈q⌉

/-- Round a rational to the nearest integer, ties to the even integer,
as Python `round` does. -/
def roundHalfEven (q : ℚ) : ℤ :=
  if q - ⌊q⌋ < 1 / 2 then ⌊q⌋
  else if 1 / 2 < q - ⌊q⌋ then ⌊q⌋ + 1
  else if 2 ∣ ⌊q⌋ then ⌊q⌋ else ⌊q⌋ + 1

/-- Python `round(x, 2)`. -/
def pyRound2 (x : ℚ) : ℚ :=
  (roundHalfEven (x * 100) : ℚ) / 100

/-- TVM.future_value_annuity from TVM/TVM-Enhance.py lines 95-96 (the same
method appears in tvm_simulation.py lines 69-70):
`payment * (((1 + rate) ** periods - 1) / rate)`. -/
def future_value_annuity (rate : ℚ) (periods : ℕ) (payment : ℚ) : Except String ℚ := do
  let q ← checkedDiv ((1 + rate) ^ periods - 1) rate
  .ok (payment * q)

/-- TVM.present_value_annuity from TVM/TVM-Enhance.py lines 98-99 (the same
method appears in tvm_simulation.py lines 72-73):
`payment * (1 - (1 + rate) ** -periods) / rate`. -/
def present_value_annuity (rate : ℚ) (periods : ℕ) (payment : ℚ) : Except String ℚ := do
  let p ← checkedZpow (1 + rate) (-(periods : ℤ))
  checkedDiv (payment * (1 - p)) rate

/-- discount_fcf from corporate-stock-valuation/valuation-stocks.py lines
53-54: `fcf / (1 + wacc) ** years`. -/
def discount_fcf (fcf wacc : ℚ) (years : ℕ) : Except String ℚ :=
  checkedDiv fcf ((1 + wacc) ^ years)

/-- constant_growth_model from corporate-stock-valuation/valuation-stocks.py
lines 47-49: `(fcf_last * (1 + growth_rate)) / (wacc - growth_rate)`. -/
def constant_growth_model (fcf_last growth_rate wacc : ℚ) : Except String ℚ :=
  checkedDiv (fcf_last * (1 + growth_rate)) (wacc - growth_rate)

/-- multi_stage_growth_model from corporate-stock-valuation/valuation-stocks.py
lines 58-71.  The first stage discounts `fcf * (1+g1) ** year` for
`year = 1 .. years_initial`; then `fcf_terminal = fcf * (1+g1) ** years_initial
* (1+g2)`, the terminal value is `constant_growth_model fcf_terminal g2 wacc`,
discounted through `years_initial` periods, and everything is summed.  The
`years_terminal` parameter appears in the source signature but is never read
in the body. -/
def multi_stage_growth_model (fcf growth_rate_initial growth_rate_terminal wacc : ℚ)
    (years_initial years_terminal : ℕ) : Except String ℚ := do
  let stage1 ← mapE
    (fun year => discount_fcf (fcf * (1 + growth_rate_initial) ^ year) wacc year)
    ((List.range years_initial).map (· + 1))
  let fcf_terminal := fcf * (1 + growth_rate_initial) ^ years_initial * (1 + growth_rate_terminal)
  let terminal_value ← constant_growth_model fcf_terminal growth_rate_terminal wacc
  let discounted_terminal ← checkedDiv terminal_value ((1 + wacc) ^ years_initial)
  .ok (stage1.sum + discounted_terminal)

/-- Single-stage intrinsic value, stated from the claim (and FCF.py lines
66-68): sum over `t = 1..N` of `FCF0 * (1+g)^t / (1+r)^t`, plus
`FCF0 * (1+g)^N / (r - g) / (1+r)^N`. -/
def singleStageIntrinsic (fcf g r : ℚ) (N : ℕ) : ℚ :=
  (((List.range N).map (fun t => fcf * (1 + g) ^ (t + 1) / (1 + r) ^ (t + 1))).sum)
    + fcf * (1 + g) ^ N / (r - g) / (1 + r) ^ N

/-- Result of a numpy/pandas float64 computation: an exact rational, an
infinity, or nan.  Dividing by zero produces inf, -inf or nan with a
RuntimeWarning and no exception. -/
inductive NPFloat : Type where
  | finite (q : ℚ)
  | posInf
  | negInf
  | nan
deriving DecidableEq

/-- Addition of float64 values: infinities absorb finite values, opposite
infinities give nan, nan propagates. -/
def npAdd : NPFloat → NPFloat → NPFloat
  | .nan, _ => .nan
  | _, .nan => .nan
  | .finite a, .finite b => .finite (a + b)
  | .finite _, .posInf => .posInf
  | .finite _, .negInf => .negInf
  | .posInf, .finite _ => .posInf
  | .negInf, .finite _ => .negInf
  | .posInf, .posInf => .posInf
  | .negInf, .negInf => .negInf
  | .posInf, .negInf => .nan
  | .negInf, .posInf => .nan

/-- Subtraction of float64 values. -/
def npSub : NPFloat → NPFloat → NPFloat
  | .nan, _ => .nan
  | _, .nan => .nan
  | .finite a, .finite b => .finite (a - b)
  | .finite _, .posInf => .negInf
  | .finite _, .negInf => .posInf
  | .posInf, .finite _ => .posInf
  | .negInf, .finite _ => .negInf
  | .posInf, .negInf => .posInf
  | .negInf, .posInf => .negInf
  | .posInf, .posInf => .nan
  | .negInf, .negInf => .nan

/-- Multiplication of float64 values: infinity times zero is nan. -/
def npMul : NPFloat → NPFloat → NPFloat
  | .nan, _ => .nan
  | _, .nan => .nan
  | .finite a, .finite b => .finite (a * b)
  | .finite a, .posInf => if a = 0 then .nan else if 0 < a then .posInf else .negInf
  | .finite a, .negInf => if a = 0 then .nan else if 0 < a then .negInf else .posInf
  | .posInf, .finite b => if b = 0 then .nan else if 0 < b then .posInf else .negInf
  | .negInf, .finite b => if b = 0 then .nan else if 0 < b then .negInf else .posInf
  | .posInf, .posInf => .posInf
  | .posInf, .negInf => .negInf
  | .negInf, .posInf => .negInf
  | .negInf, .negInf => .posInf

/-- Division of float64 values: a nonzero value divided by zero gives a
signed infinity, zero divided by zero gives nan (the rational zero plays
the role of the positive zero float, which these computations produce). -/
def npDiv : NPFloat → NPFloat → NPFloat
  | .nan, _ => .nan
  | _, .nan => .nan
  | .finite a, .finite b =>
      if b = 0 then (if a = 0 then .nan else if 0 < a then .posInf else .negInf)
      else .finite (a / b)
  | .posInf, .finite b => if 0 ≤ b then .posInf else .negInf
  | .negInf, .finite b => if 0 ≤ b then .negInf else .posInf
  | .finite _, .posInf => .finite 0
  | .finite _, .negInf => .finite 0
  | .posInf, .posInf => .nan
  | .posInf, .negInf => .nan
  | .negInf, .posInf => .nan
  | .negInf, .negInf => .nan

/-- Python `**` with a natural exponent on a float64 value, as iterated
multiplication. -/
def npPow (a : NPFloat) : ℕ → NPFloat
  | 0 => .finite 1
  | n + 1 => npMul (npPow a n) a

/-- Python `sum` over a list of float64 values (starts from the int 0). -/
def npSum (l : List NPFloat) : NPFloat :=
  l.foldl npAdd (.finite 0)

/-- One cell of the sensitivity sweep in FCF.py lines 84-85:
`sum([fcf * (1+g) ** t / (1+r) ** t for t in range(1, years + 1)] +
[fcf * (1+g) ** years / (r - g) / (1+r) ** years])`.  The operands are
numpy float64 scalars (`fcf` comes from pandas financials, `g` and `r`
from `np.linspace` arrays), so a degenerate cell with `r = g` evaluates to
an infinity with a RuntimeWarning instead of raising. -/
def sensitivity_cell (fcf : ℚ) (years : ℕ) (g r : ℚ) : NPFloat :=
  npSum (((List.range years).map (· + 1)).map
      (fun t => npDiv (.finite (fcf * (1 + g) ^ t)) (.finite ((1 + r) ^ t)))
    ++ [npDiv (npDiv (.finite (fcf * (1 + g) ^ years)) (.finite (r - g)))
        (.finite ((1 + r) ^ years))])

/-- The sensitivity grid comprehension in FCF.py lines 83-89:
`[[cell g r for r in discount_values] for g in growth_values]`.  No cell
raises (float64 semantics), so the comprehension always completes. -/
def sensitivity_grid (fcf : ℚ) (years : ℕ) (growth_values discount_values : List ℚ) :
    List (List NPFloat) :=
  growth_values.map (fun g => discount_values.map (fun r => sensitivity_cell fcf years g r))

/-- DDMValuation.calculate_dividends_eagr from
Stock-Valuation/Stock_Valuation.py lines 67-84, on the dividend series the
external provider returned: fewer than 4 entries raises ValueError,
otherwise the quarterly growth `dividends[-1] / dividends[-4] - 1` is
annualized as `(1 + q) ** 4 - 1`.  The series entries are pandas float64
values, so a zero divisor yields an infinity rather than an exception. -/
def calculate_dividends_eagr (dividends : List ℚ) : Except String NPFloat :=
  if dividends.length < 4 then
    .error "Not enough dividend data to calculate quarterly growth rate."
  else
    let start_dividend := dividends.getD (dividends.length - 4) 0
    let end_dividend := dividends.getD (dividends.length - 1) 0
    let quarterly_growth_rate :=
      npSub (npDiv (.finite end_dividend) (.finite start_dividend)) (.finite 1)
    .ok (npSub (npPow (npAdd (.finite 1) quarterly_growth_rate) 4) (.finite 1))

/-- DDMValuation.calculate_value from Stock-Valuation/Stock_Valuation.py
lines 86-94: raises when dividend or growth rate is unset, raises
"Discount rate must be greater than growth rate." when
`discount_rate <= growth_rate`, otherwise returns
`dividend / (discount_rate - growth_rate)`. -/
def calculate_value (dividend growth_rate : Option ℚ) (discount_rate : ℚ) :
    Except String ℚ :=
  match dividend, growth_rate with
  | some d, some g =>
      if discount_rate ≤ g then
        .error "Discount rate must be greater than growth rate."
      else
        checkedDiv d (discount_rate - g)
  | _, _ => .error "Data not fetched. Please call fetch_data()."

/-- calculate_bond_price from Bond_Valuation/Bond-sen.py lines 92-120 (the
identical function appears in Bond_Valuation/bond-heat.py and
Bond_Valuation/bond-final-enhan.py).  Dates are modelled as day ordinals, so
`(maturity_date - settlement_date).days` is integer subtraction. -/
def calculate_bond_price (face_value coupon_rate yield_rate : ℚ)
    (settlement_date maturity_date : ℤ) (frequency : ℕ) : Except String ℚ := do
  let days_to_maturity : ℤ := maturity_date - settlement_date
  let N : ℚ := (days_to_maturity : ℚ) / 360
  let coupon_payment ← checkedDiv (face_value * (coupon_rate / 100)) (frequency : ℚ)
  let total_payments : ℤ := ratTrunc (N * (frequency : ℚ))
  let per ← checkedDiv (yield_rate / 100) (frequency : ℚ)
  let pv_terms ← mapE (fun f => checkedDiv coupon_payment ((1 + per) ^ (f + 1)))
    (List.range total_payments.toNat)
  let denom ← checkedZpow (1 + per) total_payments
  let pv_face_value ← checkedDiv face_value denom
  .ok (pyRound2 (pv_terms.sum + pv_face_value))

/-- The Calculate Price handler of Bond_Valuation/bond-final-enhan.py lines
128-137: it refuses to price when `maturity_date <= settlement_date` and
otherwise calls `calculate_bond_price`. -/
def calculate_price_handler (face_value coupon_rate yield_rate : ℚ)
    (settlement_date maturity_date : ℤ) (frequency : ℕ) : Except String ℚ :=
  if maturity_date ≤ settlement_date then
    .error "Maturity date must be after the settlement date."
  else
    calculate_bond_price face_value coupon_rate yield_rate settlement_date maturity_date frequency

/-- calculate_price from Streamlit-Bond.py lines 8-19: annual coupons,
integer years, decimal rates, and no rounding of the returned price. -/
def calculate_price (face_value market_rate : ℚ) (years : ℕ) (coupon_rate : ℚ) :
    Except String ℚ := do
  let C := face_value * coupon_rate
  let F := face_value
  let pv_terms ← mapE (fun t => checkedDiv C ((1 + market_rate) ^ t))
    ((List.range years).map (· + 1))
  let pv_face_value ← checkedDiv F ((1 + market_rate) ^ years)
  .ok (pv_terms.sum + pv_face_value)

/-- The discounting kernel shared by both bond pricers, before any
rounding: `T` coupon payments of amount `A` discounted at the per-period
rate `i`, plus the discounted principal `F`. -/
def discountedSum (A F i : ℚ) (T : ℕ) : ℚ :=
  ((List.range T).map (fun t => A / (1 + i) ^ (t + 1))).sum + F / (1 + i) ^ T

theorem ok_bind {α β : Type} (a : α) (f : α → Except String β) :
    (Except.ok a >>= f) = f a := rfl

theorem error_bind {α β : Type} (e : String) (f : α → Except String β) :
    ((Except.error e : Except String α) >>= f) = Except.error e := rfl

theorem checkedDiv_ok (a : ℚ) {b : ℚ} (h : b ≠ 0) : checkedDiv a b = .ok (a / b) := by
  simp [checkedDiv, h]

theorem checkedDiv_zero (a : ℚ) : checkedDiv a 0 = .error "ZeroDivisionError" := by
  simp [checkedDiv]

theorem mapE_ok {α β : Type} {f : α → Except String β} {g : α → β} :
    ∀ l : List α, (∀ a ∈ l, f a = .ok (g a)) → mapE f l = .ok (l.map g)
  | [], _ => rfl
  | a :: as, h => by
      simp only [mapE, h a (List.mem_cons_self a as), ok_bind,
        mapE_ok as (fun x hx => h x (List.mem_cons_of_mem a hx)), List.map_cons]

theorem discountedSum_zero (A F i : ℚ) : discountedSum A F i 0 = F := by
  simp [discountedSum]

theorem discountedSum_succ (A F i : ℚ) (T : ℕ) :
    discountedSum A F i (T + 1) =
      ((List.range T).map (fun t => A / (1 + i) ^ (t + 1))).sum
        + A / (1 + i) ^ (T + 1) + F / (1 + i) ^ (T + 1) := by
  simp [discountedSum, List.range_succ]

theorem discountedSum_par (F i : ℚ) (h : 1 + i ≠ 0) :
    ∀ T : ℕ, discountedSum (F * i) F i T = F := by
  intro T
  induction T with
  | zero => exact discountedSum_zero _ _ _
  | succ T ih =>
      rw [discountedSum_succ]
      have hs : ((List.range T).map (fun t => F * i / (1 + i) ^ (t + 1))).sum
          = F - F / (1 + i) ^ T := by
        have := ih
        rw [discountedSum] at this
        linarith
      have key : F * i / (1 + i) ^ (T + 1) + F / (1 + i) ^ (T + 1)
          = F / (1 + i) ^ T := by
        rw [div_add_div_same]
        have hnum : F * i + F = F * (1 + i) := by ring
        rw [hnum, pow_succ, mul_div_mul_right _ _ h]
      rw [hs]
      linarith

theorem calculate_price_ok (face_value market_rate : ℚ) (years : ℕ) (coupon_rate : ℚ)
    (h : 1 + market_rate ≠ 0) :
    calculate_price face_value market_rate years coupon_rate =
      .ok (discountedSum (face_value * coupon_rate) face_value market_rate years) := by
  rw [calculate_price]
  rw [mapE_ok ((List.range years).map (· + 1))
    (g := fun t => face_value * coupon_rate / (1 + market_rate) ^ t)
    (fun t _ => checkedDiv_ok _ (pow_ne_zero t h))]
  rw [ok_bind, checkedDiv_ok _ (pow_ne_zero years h), ok_bind]
  rw [discountedSum, List.map_map]
  rfl

theorem calculate_bond_price_ok (F c y : ℚ) (s m : ℤ) (freq : ℕ)
    (hf : freq ≠ 0) (hy : 0 ≤ y) (hsm : s ≤ m) :
    calculate_bond_price F c y s m freq =
      .ok (pyRound2 (discountedSum (F * (c / 100) / (freq : ℚ)) F
        (y / 100 / (freq : ℚ))
        (ratTrunc (((m - s : ℤ) : ℚ) / 360 * (freq : ℚ))).toNat)) := by
  have hfQ : (freq : ℚ) ≠ 0 := Nat.cast_ne_zero.mpr hf
  have hfpos : (0 : ℚ) < (freq : ℚ) := by
    exact_mod_cast Nat.pos_of_ne_zero hf
  have hi0 : 0 ≤ y / 100 / (freq : ℚ) :=
    div_nonneg (div_nonneg hy (by norm_num)) hfpos.le
  have h1i : (0 : ℚ) < 1 + y / 100 / (freq : ℚ) := by linarith
  have h1i' : 1 + y / 100 / (freq : ℚ) ≠ 0 := ne_of_gt h1i
  have hq : 0 ≤ ((m - s : ℤ) : ℚ) / 360 * (freq : ℚ) := by
    apply mul_nonneg _ hfpos.le
    apply div_nonneg _ (by norm_num)
    exact_mod_cast sub_nonneg.mpr hsm
  have hTz : 0 ≤ ratTrunc (((m - s : ℤ) : ℚ) / 360 * (freq : ℚ)) := by
    rw [ratTrunc, if_pos hq]
    exact Int.floor_nonneg.mpr hq
  rw [calculate_bond_price]
  simp only [checkedDiv_ok _ hfQ, ok_bind]
  rw [mapE_ok _
    (g := fun f => F * (c / 100) / (freq : ℚ) / (1 + y / 100 / (freq : ℚ)) ^ (f + 1))
    (fun f _ => checkedDiv_ok _ (pow_ne_zero _ h1i')), ok_bind]
  rw [checkedZpow, if_neg (by rintro ⟨h, _⟩; exact h1i' h), ok_bind]
  rw [checkedDiv_ok F (zpow_ne_zero _ h1i'), ok_bind]
  have hzp : (1 + y / 100 / (freq : ℚ)) ^ ratTrunc (((m - s : ℤ) : ℚ) / 360 * (freq : ℚ))
      = (1 + y / 100 / (freq : ℚ)) ^ (ratTrunc (((m - s : ℤ) : ℚ) / 360 * (freq : ℚ))).toNat := by
    conv_lhs => rw [← Int.toNat_of_nonneg hTz]
    rw [zpow_natCast]
  rw [hzp, discountedSum]

theorem discountedSum_le (A F : ℚ) (hA : 0 ≤ A) (hF : 0 ≤ F) {i1 i2 : ℚ}
    (h0 : 0 ≤ i1) (h12 : i1 ≤ i2) (T : ℕ) :
    discountedSum A F i2 T ≤ discountedSum A F i1 T := by
  rw [discountedSum, discountedSum]
  apply add_le_add
  · apply List.sum_le_sum
    intro t _
    gcongr
  · gcongr

theorem discountedSum_lt (A F : ℚ) (hA : 0 ≤ A) (hF : 0 < F) {i1 i2 : ℚ}
    (h0 : 0 ≤ i1) (h12 : i1 < i2) (T : ℕ) (hT : T ≠ 0) :
    discountedSum A F i2 T < discountedSum A F i1 T := by
  rw [discountedSum, discountedSum]
  apply add_lt_add_of_le_of_lt
  · apply List.sum_le_sum
    intro t _
    gcongr
  · apply div_lt_div_of_pos_left hF (pow_pos (by linarith) T)
    exact pow_lt_pow_left₀ (by linarith) (by linarith) hT

theorem roundHalfEven_floor_le (q : ℚ) : ⌊q⌋ ≤ roundHalfEven q := by
  rw [roundHalfEven]
  split_ifs <;> omega

theorem roundHalfEven_le_floor_add_one (q : ℚ) : roundHalfEven q ≤ ⌊q⌋ + 1 := by
  rw [roundHalfEven]
  split_ifs <;> omega

theorem roundHalfEven_mono {x y : ℚ} (h : x ≤ y) :
    roundHalfEven x ≤ roundHalfEven y := by
  rcases lt_or_ge ⌊x⌋ ⌊y⌋ with hf | hf
  · calc roundHalfEven x ≤ ⌊x⌋ + 1 := roundHalfEven_le_floor_add_one x
      _ ≤ ⌊y⌋ := by omega
      _ ≤ roundHalfEven y := roundHalfEven_floor_le y
  · have hfe : ⌊x⌋ = ⌊y⌋ := le_antisymm (Int.floor_mono h) hf
    rw [roundHalfEven, roundHalfEven, hfe]
    have hd : x - (⌊y⌋ : ℚ) ≤ y - (⌊y⌋ : ℚ) := by linarith
    split_ifs <;> first | omega | linarith

theorem pyRound2_mono {x y : ℚ} (h : x ≤ y) : pyRound2 x ≤ pyRound2 y := by
  rw [pyRound2, pyRound2]
  have h1 : roundHalfEven (x * 100) ≤ roundHalfEven (y * 100) :=
    roundHalfEven_mono (by linarith)
  have h2 : ((roundHalfEven (x * 100) : ℤ) : ℚ) ≤ ((roundHalfEven (y * 100) : ℤ) : ℚ) := by
    exact_mod_cast h1
  linarith

theorem ratTrunc_natCast (n : ℕ) : ratTrunc ((n : ℕ) : ℚ) = (n : ℤ) := by
  rw [ratTrunc, if_pos (by positivity), Int.floor_natCast]

theorem npDiv_finite (a : ℚ) {b : ℚ} (h : b ≠ 0) :
    npDiv (.finite a) (.finite b) = .finite (a / b) := by
  simp [npDiv, h]

theorem npDiv_pos_zero {a : ℚ} (ha : 0 < a) :
    npDiv (.finite a) (.finite 0) = .posInf := by
  simp [npDiv, ha, ha.ne']

theorem npDiv_posInf_nonneg {b : ℚ} (hb : 0 ≤ b) :
    npDiv .posInf (.finite b) = .posInf := by
  simp [npDiv, hb]

theorem npFoldl_finite :
    ∀ (l : List NPFloat) (a : ℚ), (∀ x ∈ l, ∃ q, x = NPFloat.finite q) →
      ∃ b : ℚ, l.foldl npAdd (.finite a) = .finite b
  | [], a, _ => ⟨a, rfl⟩
  | x :: xs, a, h => by
      obtain ⟨q, hq⟩ := h x (List.mem_cons_self x xs)
      rw [List.foldl_cons, hq]
      show ∃ b : ℚ, xs.foldl npAdd (.finite (a + q)) = .finite b
      exact npFoldl_finite xs (a + q) (fun y hy => h y (List.mem_cons_of_mem x hy))

theorem npSum_finite {l : List NPFloat} (h : ∀ x ∈ l, ∃ q, x = NPFloat.finite q) :
    ∃ b : ℚ, npSum l = .finite b :=
  npFoldl_finite l 0 h

theorem npSum_append_posInf {l : List NPFloat}
    (h : ∀ x ∈ l, ∃ q, x = NPFloat.finite q) :
    npSum (l ++ [NPFloat.posInf]) = .posInf := by
  rw [npSum, List.foldl_append]
  obtain ⟨b, hb⟩ := npFoldl_finite l 0 h
  rw [hb]
  rfl

theorem npPow_finite (q : ℚ) : ∀ n : ℕ, npPow (.finite q) n = .finite (q ^ n)
  | 0 => by simp [npPow]
  | n + 1 => by
      rw [npPow, npPow_finite q n]
      simp [npMul, pow_succ]

theorem npPow_posInf : ∀ n : ℕ, npPow .posInf (n + 1) = .posInf
  | 0 => by
      rw [npPow, npPow]
      simp [npMul]
  | n + 1 => by
      rw [npPow, npPow_posInf n]
      rfl

/-- C1: at rate 0 both annuity routines raise ZeroDivisionError instead of
returning payment times periods, for every period count and payment. -/
theorem C1_annuity_rate_zero_raises (periods : ℕ) (payment : ℚ) :
    future_value_annuity 0 periods payment = .error "ZeroDivisionError" ∧
      present_value_annuity 0 periods payment = .error "ZeroDivisionError" := by
  constructor
  · simp [future_value_annuity, checkedDiv_zero, error_bind]
  · simp [present_value_annuity, checkedZpow, checkedDiv_zero, ok_bind, error_bind]

/-- C2 counterexample: with both growth rates equal to 1, discount rate 3,
horizon 1 and second-stage horizon 0, the two-stage valuer returns 3/2 while
the single-stage formula of the claim gives 3/4. -/
theorem C2_two_stage_counterexample :
    multi_stage_growth_model 1 1 1 3 1 0 ≠ .ok (singleStageIntrinsic 1 1 3 1) := by
  have h1 : multi_stage_growth_model 1 1 1 3 1 0 = .ok (3 / 2) := by
    rw [multi_stage_growth_model]
    norm_num [mapE, discount_fcf, constant_growth_model, checkedDiv, ok_bind]
  have h2 : singleStageIntrinsic 1 1 3 1 = 3 / 4 := by
    norm_num [singleStageIntrinsic, List.range_succ]
  rw [h1, h2]
  simp only [ne_eq, Except.ok.injEq]
  norm_num

/-- C2 amended: with both stage growth rates g and second-stage horizon 0,
the two-stage valuer returns the single-stage present-value sum whose
terminal numerator carries the exponent N + 2 instead of N (two extra
factors of 1 + g relative to the single-stage formula). -/
theorem C2_two_stage_amended (fcf g r : ℚ) (N : ℕ) (hg : 0 ≤ g) (hgr : g < r)
    (hN : 1 ≤ N) :
    multi_stage_growth_model fcf g g r N 0 =
      .ok (((List.range N).map (fun t => fcf * (1 + g) ^ (t + 1) / (1 + r) ^ (t + 1))).sum
        + fcf * (1 + g) ^ (N + 2) / (r - g) / (1 + r) ^ N) := by
  have hr0 : (0 : ℚ) < r := lt_of_le_of_lt hg hgr
  have h1r : 1 + r ≠ 0 := ne_of_gt (by linarith)
  have hrg : r - g ≠ 0 := sub_ne_zero.mpr (ne_of_gt hgr)
  rw [multi_stage_growth_model]
  rw [mapE_ok _
    (g := fun year => fcf * (1 + g) ^ year / (1 + r) ^ year)
    (fun year _ => by rw [discount_fcf]; exact checkedDiv_ok _ (pow_ne_zero _ h1r)),
    ok_bind]
  simp only [constant_growth_model]
  rw [checkedDiv_ok _ hrg, ok_bind]
  rw [checkedDiv_ok _ (pow_ne_zero _ h1r), ok_bind]
  congr 1
  rw [List.map_map]
  congr 1
  field_simp
  ring

theorem C2_two_stage_amended_witness :
    multi_stage_growth_model 1 0 0 1 1 0 =
      .ok (((List.range 1).map (fun t => 1 * (1 + 0) ^ (t + 1) / (1 + 1) ^ (t + 1))).sum
        + 1 * (1 + 0) ^ (1 + 2) / (1 - 0) / (1 + 1) ^ 1) :=
  C2_two_stage_amended 1 0 1 1 (by norm_num) (by norm_num) (by norm_num)

/-- C3: calculate_value raises the distinct degenerate-rate error whenever
the discount rate is at most the growth rate, and returns a numeric value
whenever the discount rate strictly exceeds the growth rate. -/
theorem C3_ddm_degenerate_rate (d g R : ℚ) :
    (R ≤ g → calculate_value (some d) (some g) R =
        .error "Discount rate must be greater than growth rate.") ∧
      (g < R → ∃ v, calculate_value (some d) (some g) R = .ok v) := by
  constructor
  · intro h
    simp [calculate_value, h]
  · intro h
    refine ⟨d / (R - g), ?_⟩
    rw [calculate_value]
    rw [if_neg (not_le.mpr h)]
    exact checkedDiv_ok d (sub_ne_zero.mpr (ne_of_gt h))

theorem C3_ddm_degenerate_rate_witness :
    calculate_value (some 2) (some 5) 5 =
        .error "Discount rate must be greater than growth rate." ∧
      ∃ v, calculate_value (some 2) (some 5) 6 = .ok v :=
  ⟨(C3_ddm_degenerate_rate 2 5 5).1 (le_refl 5),
    (C3_ddm_degenerate_rate 2 5 6).2 (by norm_num)⟩

/-- C4 counterexample: the Bond-sen.py pricing path performs no date
validation; at maturity equal to settlement it silently returns the rounded
face value instead of signalling a validation error. -/
theorem C4_missing_validation_counterexample :
    calculate_bond_price 1000 5 5 0 0 1 = .ok 1000 := by
  rw [calculate_bond_price_ok 1000 5 5 0 0 1 (by norm_num) (by norm_num) (by norm_num)]
  have hT : ratTrunc (((0 - 0 : ℤ) : ℚ) / 360 * ((1 : ℕ) : ℚ)) = 0 := by
    norm_num [ratTrunc]
  rw [hT]
  rw [show ((0 : ℤ).toNat) = 0 from rfl, discountedSum_zero]
  norm_num [pyRound2, roundHalfEven]

/-- C4 amended: the handler of bond-final-enhan.py refuses to price whenever
the maturity date is not strictly after the settlement date. -/
theorem C4_handler_validates (F c y : ℚ) (s m : ℤ) (freq : ℕ) (h : m ≤ s) :
    calculate_price_handler F c y s m freq =
      .error "Maturity date must be after the settlement date." := by
  rw [calculate_price_handler, if_pos h]

theorem C4_handler_validates_witness :
    calculate_price_handler 1000 5 5 0 0 1 =
      .error "Maturity date must be after the settlement date." :=
  C4_handler_validates 1000 5 5 0 0 1 (le_refl 0)

/-- C5 counterexample: a face value of 0.001 prices at par before rounding,
but the returned rounded price is 0.00, not the face value. -/
theorem C5_par_counterexample :
    calculate_bond_price (1 / 1000) 5 5 0 360 1 ≠ .ok (1 / 1000) := by
  have h := calculate_bond_price_ok (1 / 1000) 5 5 0 360 1 (by norm_num) (by norm_num)
    (by norm_num)
  rw [h]
  have hT : ratTrunc (((360 - 0 : ℤ) : ℚ) / 360 * ((1 : ℕ) : ℚ)) = 1 := by
    norm_num [ratTrunc]
  rw [hT]
  have hds : discountedSum (1 / 1000 * (5 / 100) / ((1 : ℕ) : ℚ)) (1 / 1000)
      (5 / 100 / ((1 : ℕ) : ℚ)) 1 = 1 / 1000 := by
    norm_num [discountedSum, List.range_succ]
  rw [show ((1 : ℤ).toNat) = 1 from rfl, hds]
  have hr : pyRound2 (1 / 1000) = 0 := by
    norm_num [pyRound2, roundHalfEven]
  rw [hr]
  simp

/-- C5 amended: at yield equal to coupon the integer-years pricer returns
the face value exactly, and the date-driven pricer returns the face value
rounded to 2 decimals (equal to the face value whenever it is a whole-cent
amount), for any whole-year maturity and any positive frequency. -/
theorem C5_par_identity_amended :
    (∀ (F r : ℚ) (years : ℕ), 1 + r ≠ 0 → calculate_price F r years r = .ok F) ∧
      ∀ (F c : ℚ) (s : ℤ) (k freq : ℕ), freq ≠ 0 → 0 ≤ c →
        calculate_bond_price F c c s (s + 360 * (k : ℤ)) freq = .ok (pyRound2 F) := by
  constructor
  · intro F r years h
    rw [calculate_price_ok F r years r h, discountedSum_par F r h years]
  · intro F c s k freq hf hc
    have hk : (0 : ℤ) ≤ 360 * (k : ℤ) := by positivity
    have hsm : s ≤ s + 360 * (k : ℤ) := by linarith
    rw [calculate_bond_price_ok F c c s (s + 360 * (k : ℤ)) freq hf hc hsm]
    have harg : ((s + 360 * (k : ℤ) - s : ℤ) : ℚ) / 360 * (freq : ℚ)
        = ((k * freq : ℕ) : ℚ) := by
      push_cast
      ring
    rw [harg, ratTrunc_natCast, Int.toNat_natCast]
    have hfpos : (0 : ℚ) < (freq : ℚ) := by exact_mod_cast Nat.pos_of_ne_zero hf
    have hi0 : 0 ≤ c / 100 / (freq : ℚ) :=
      div_nonneg (div_nonneg hc (by norm_num)) hfpos.le
    have h1i : 1 + c / 100 / (freq : ℚ) ≠ 0 := ne_of_gt (by linarith)
    rw [mul_div_assoc, discountedSum_par F _ h1i]

theorem C5_par_identity_witness :
    calculate_price 1000 (5 / 100) 10 (5 / 100) = .ok 1000 ∧
      calculate_bond_price 1000 5 5 0 (0 + 360 * ((10 : ℕ) : ℤ)) 1 = .ok (pyRound2 1000) :=
  ⟨C5_par_identity_amended.1 1000 (5 / 100) 10 (by norm_num),
    C5_par_identity_amended.2 1000 5 0 10 1 (by norm_num) (by norm_num)⟩

/-- C6 counterexample: two distinct yields, 5 and 5.0001, both return the
same rounded price 1000.00 from the date-driven pricer, so the returned
price is not strictly decreasing in the yield. -/
theorem C6_monotonicity_counterexample :
    calculate_bond_price 1000 5 5 0 360 1 = .ok 1000 ∧
      calculate_bond_price 1000 5 (50001 / 10000) 0 360 1 = .ok 1000 ∧
      (5 : ℚ) < 50001 / 10000 := by
  refine ⟨?_, ?_, by norm_num⟩
  · rw [calculate_bond_price_ok 1000 5 5 0 360 1 (by norm_num) (by norm_num) (by norm_num)]
    have hT : ratTrunc (((360 - 0 : ℤ) : ℚ) / 360 * ((1 : ℕ) : ℚ)) = 1 := by
      norm_num [ratTrunc]
    rw [hT]
    have hds : discountedSum (1000 * (5 / 100) / ((1 : ℕ) : ℚ)) 1000
        (5 / 100 / ((1 : ℕ) : ℚ)) 1 = 1000 := by
      norm_num [discountedSum, List.range_succ]
    rw [show ((1 : ℤ).toNat) = 1 from rfl, hds]
    norm_num [pyRound2, roundHalfEven]
  · rw [calculate_bond_price_ok 1000 5 (50001 / 10000) 0 360 1 (by norm_num) (by norm_num)
      (by norm_num)]
    have hT : ratTrunc (((360 - 0 : ℤ) : ℚ) / 360 * ((1 : ℕ) : ℚ)) = 1 := by
      norm_num [ratTrunc]
    rw [hT]
    have hds : discountedSum (1000 * (5 / 100) / ((1 : ℕ) : ℚ)) 1000
        (50001 / 10000 / 100 / ((1 : ℕ) : ℚ)) 1 = 1050000000 / 1050001 := by
      norm_num [discountedSum, List.range_succ]
    rw [show ((1 : ℤ).toNat) = 1 from rfl, hds]
    norm_num [pyRound2, roundHalfEven]

/-- C6 amended: the price before the final rounding is strictly decreasing
in the yield; the integer-years pricer returns it unrounded (hence strictly
decreasing), and the date-driven pricer returns a non-increasing rounded
price. -/
theorem C6_yield_monotonicity_amended :
    (∀ (F c y1 y2 : ℚ) (years : ℕ), 0 < F → 0 ≤ c → 0 ≤ y1 → y1 < y2 → years ≠ 0 →
        ∃ p1 p2, calculate_price F y1 years c = .ok p1 ∧
          calculate_price F y2 years c = .ok p2 ∧ p2 < p1) ∧
      ∀ (F c y1 y2 : ℚ) (s m : ℤ) (freq : ℕ), 0 < F → 0 ≤ c → 0 ≤ y1 → y1 ≤ y2 →
        freq ≠ 0 → s ≤ m →
          ∃ p1 p2, calculate_bond_price F c y1 s m freq = .ok p1 ∧
            calculate_bond_price F c y2 s m freq = .ok p2 ∧ p2 ≤ p1 := by
  constructor
  · intro F c y1 y2 years hF hc hy1 h12 hy
    refine ⟨_, _, calculate_price_ok F y1 years c (ne_of_gt (by linarith)),
      calculate_price_ok F y2 years c (ne_of_gt (by linarith)), ?_⟩
    exact discountedSum_lt (F * c) F (mul_nonneg hF.le hc) hF hy1 h12 years hy
  · intro F c y1 y2 s m freq hF hc hy1 h12 hf hsm
    have hfpos : (0 : ℚ) < (freq : ℚ) := by exact_mod_cast Nat.pos_of_ne_zero hf
    refine ⟨_, _, calculate_bond_price_ok F c y1 s m freq hf hy1 hsm,
      calculate_bond_price_ok F c y2 s m freq hf (le_trans hy1 h12) hsm, ?_⟩
    apply pyRound2_mono
    apply discountedSum_le
    · exact div_nonneg (mul_nonneg hF.le (div_nonneg hc (by norm_num))) hfpos.le
    · exact hF.le
    · exact div_nonneg (div_nonneg hy1 (by norm_num)) hfpos.le
    · exact (div_le_div_iff_of_pos_right hfpos).mpr
        ((div_le_div_iff_of_pos_right (by norm_num : (0 : ℚ) < 100)).mpr h12)

theorem C6_yield_monotonicity_witness :
    (∃ p1 p2, calculate_price 1000 (1 / 20) 1 (1 / 20) = .ok p1 ∧
        calculate_price 1000 (1 / 10) 1 (1 / 20) = .ok p2 ∧ p2 < p1) ∧
      ∃ p1 p2, calculate_bond_price 1000 5 5 0 360 1 = .ok p1 ∧
        calculate_bond_price 1000 5 6 0 360 1 = .ok p2 ∧ p2 ≤ p1 :=
  ⟨C6_yield_monotonicity_amended.1 1000 (1 / 20) (1 / 20) (1 / 10) 1 (by norm_num)
      (by norm_num) (by norm_num) (by norm_num) (by norm_num),
    C6_yield_monotonicity_amended.2 1000 5 5 6 0 360 1 (by norm_num) (by norm_num)
      (by norm_num) (by norm_num) (by norm_num) (by norm_num)⟩

/-- C7: the sensitivity grid always has exactly len(axis1) rows and
len(axis2) columns; a degenerate cell where the swept discount rate equals
the growth rate evaluates to the invalid value inf (float64 division by
zero, no exception and no abort), while every cell whose discount rate
differs from its growth rate is computed as a finite number. -/
theorem C7_grid_dims_and_degenerate_cell (fcf : ℚ) (years : ℕ) (gs rs : List ℚ) :
    (sensitivity_grid fcf years gs rs).length = gs.length ∧
      (∀ row ∈ sensitivity_grid fcf years gs rs, row.length = rs.length) ∧
      (∀ g r : ℚ, 0 < fcf → 0 ≤ g → r = g →
        sensitivity_cell fcf years g r = .posInf) ∧
      (∀ g r : ℚ, 0 ≤ r → r ≠ g →
        ∃ q : ℚ, sensitivity_cell fcf years g r = .finite q) := by
  refine ⟨by simp [sensitivity_grid], ?_, ?_, ?_⟩
  · intro row hrow
    rw [sensitivity_grid] at hrow
    obtain ⟨g, _, rfl⟩ := List.mem_map.mp hrow
    simp
  · intro g r hfcf hg hrg
    subst hrg
    have h1r : (0 : ℚ) < 1 + r := by linarith
    rw [sensitivity_cell]
    have htv : npDiv (npDiv (.finite (fcf * (1 + r) ^ years)) (.finite (r - r)))
        (.finite ((1 + r) ^ years)) = .posInf := by
      rw [sub_self, npDiv_pos_zero (by positivity), npDiv_posInf_nonneg (by positivity)]
    rw [htv]
    apply npSum_append_posInf
    intro x hx
    obtain ⟨t, _, rfl⟩ := List.mem_map.mp hx
    exact ⟨_, npDiv_finite _ (pow_ne_zero _ (ne_of_gt h1r))⟩
  · intro g r hr hne
    have h1r : (0 : ℚ) < 1 + r := by linarith
    rw [sensitivity_cell]
    apply npSum_finite
    intro x hx
    rw [List.mem_append] at hx
    rcases hx with hx | hx
    · obtain ⟨t, _, rfl⟩ := List.mem_map.mp hx
      exact ⟨_, npDiv_finite _ (pow_ne_zero _ (ne_of_gt h1r))⟩
    · rw [List.mem_singleton] at hx
      subst hx
      rw [npDiv_finite _ (sub_ne_zero.mpr hne)]
      exact ⟨_, npDiv_finite _ (pow_ne_zero _ (ne_of_gt h1r))⟩

theorem C7_grid_witness :
    (sensitivity_grid 100 1 [1 / 20] [1 / 20, 1 / 10]).length = 1 ∧
      sensitivity_cell 100 1 (1 / 20) (1 / 20) = .posInf ∧
      ∃ q, sensitivity_cell 100 1 (1 / 20) (1 / 10) = .finite q := by
  obtain ⟨h1, _, h3, h4⟩ := C7_grid_dims_and_degenerate_cell 100 1 [1 / 20] [1 / 20, 1 / 10]
  exact ⟨h1, h3 (1 / 20) (1 / 20) (by norm_num) (by norm_num) rfl,
    h4 (1 / 20) (1 / 10) (by norm_num) (by norm_num)⟩

/-- C8: fewer than 4 observations raise the insufficient-history error;
otherwise the routine returns (1 + q)^4 - 1 with q = latest/fourth-from-end
- 1 evaluated in float64 arithmetic: the exact rational value whenever the
entry four positions from the end is nonzero, and inf (not an exception)
when that entry is zero and the latest entry is positive. -/
theorem C8_eagr_history_and_formula (l : List ℚ) :
    (l.length < 4 → calculate_dividends_eagr l =
        .error "Not enough dividend data to calculate quarterly growth rate.") ∧
      (4 ≤ l.length → l.getD (l.length - 4) 0 ≠ 0 →
        calculate_dividends_eagr l =
          .ok (.finite
            ((1 + (l.getD (l.length - 1) 0 / l.getD (l.length - 4) 0 - 1)) ^ 4 - 1))) ∧
      (4 ≤ l.length → l.getD (l.length - 4) 0 = 0 → 0 < l.getD (l.length - 1) 0 →
        calculate_dividends_eagr l = .ok .posInf) := by
  refine ⟨fun h => by rw [calculate_dividends_eagr, if_pos h], ?_, ?_⟩
  · intro h4 hnz
    rw [calculate_dividends_eagr, if_neg (not_lt.mpr h4)]
    simp only [npDiv_finite _ hnz, npSub, npAdd, npPow_finite]
  · intro h4 hz hpos
    rw [calculate_dividends_eagr, if_neg (not_lt.mpr h4)]
    simp only [hz, npDiv_pos_zero hpos]
    rw [show npSub NPFloat.posInf (.finite 1) = .posInf from rfl,
      show npAdd (.finite 1) NPFloat.posInf = .posInf from rfl,
      show (4 : ℕ) = 3 + 1 from rfl, npPow_posInf]
    rfl

theorem C8_eagr_witness :
    calculate_dividends_eagr [1] =
        .error "Not enough dividend data to calculate quarterly growth rate." ∧
      calculate_dividends_eagr [1, 1, 1, 2] =
        .ok (.finite ((1 + ([(1 : ℚ), 1, 1, 2].getD ([(1 : ℚ), 1, 1, 2].length - 1) 0 /
          [(1 : ℚ), 1, 1, 2].getD ([(1 : ℚ), 1, 1, 2].length - 4) 0 - 1)) ^ 4 - 1)) ∧
      calculate_dividends_eagr [0, 1, 1, 1] = .ok .posInf :=
  ⟨(C8_eagr_history_and_formula [1]).1 (by norm_num),
    (C8_eagr_history_and_formula [1, 1, 1, 2]).2.1 (by norm_num) (by norm_num [List.getD]),
    (C8_eagr_history_and_formula [0, 1, 1, 1]).2.2 (by norm_num) (by norm_num [List.getD])
      (by norm_num [List.getD])⟩

/-- C9: the result of multi_stage_growth_model does not depend on the
years_terminal argument at all. -/
theorem C9_terminal_horizon_ignored (fcf g1 g2 wacc : ℚ) (yi t1 t2 : ℕ) :
    multi_stage_growth_model fcf g1 g2 wacc yi t1 =
      multi_stage_growth_model fcf g1 g2 wacc yi t2 := rfl

/-- C10: whenever the truncated period count is zero, the date-driven
pricer returns exactly the rounded face value, independent of the coupon
and yield rates. -/
theorem C10_zero_periods_returns_face (F c y : ℚ) (s m : ℤ) (freq : ℕ)
    (hf : freq ≠ 0)
    (h0 : ratTrunc (((m - s : ℤ) : ℚ) / 360 * (freq : ℚ)) = 0) :
    calculate_bond_price F c y s m freq = .ok (pyRound2 F) := by
  have hfQ : (freq : ℚ) ≠ 0 := Nat.cast_ne_zero.mpr hf
  rw [calculate_bond_price]
  simp only [checkedDiv_ok _ hfQ, ok_bind, h0]
  simp [mapE, checkedZpow, ok_bind, checkedDiv_ok F one_ne_zero]

theorem C10_zero_periods_witness :
    calculate_bond_price 500 7 3 0 100 1 = .ok (pyRound2 500) :=
  C10_zero_periods_returns_face 500 7 3 0 100 1 (by norm_num) (by norm_num [ratTrunc])
